import Mathlib

/-!
Verification of the nightmare generic test-case minimizer
(`fuzzers/generic_minimizer.py`, Python 2) against its natural-language
specification.  The Python source is shallowly embedded: configuration
resolution becomes an `Except`-valued function over an abstract ini
parser, the two minimization loops (`CGenericMinimizer.do_try` and
`CLineMinimizer.do_try`) become fuel-indexed recursive functions over
explicit state records, and the crash oracle (the external command
execution of `nfp_process`, which is not part of this file's source) is
abstracted as a boolean-valued parameter, exactly as the spec's
"pluggable Crash Oracle" interface describes.  Machine-level Python 2
behaviours that the claims turn on (attribute errors on ints, the
inter-type `list > int` comparison, dictionary membership) are embedded
explicitly.
-/

namespace Nightmare

/-! ## Python value and error model -/

/-- Python exceptions that the embedded fragments can raise. -/
inductive PyErr where
  | attributeError
  | keyError
  | valueError
  | exn (msg : String)
deriving DecidableEq, Repr

/-- A Python value that is either an int or a str (the two types the
configuration code stores in `self.timeout` and `self.mode`). -/
inductive PVal where
  | pint (n : Int)
  | pstr (s : String)
deriving DecidableEq, Repr

/-- Lower-casing a string character by character (kernel-evaluable
version of `str.lower()`). -/
def strLower (s : String) : String := String.mk (s.data.map Char.toLower)

/-- The value of a nonempty all-digit character sequence. -/
def digitsToNat (cs : List Char) : Option Nat :=
  if cs ≠ [] ∧ cs.all Char.isDigit then
    some (cs.foldl (fun n c => n * 10 + (c.toNat - 48)) 0)
  else none

/-- Python `int(str)` on a decimal literal with an optional leading minus
sign; `none` models the `ValueError` raised on anything else. -/
def pyStrToInt (s : String) : Option Int :=
  match s.data with
  | '-' :: rest => (digitsToNat rest).map (fun n => -(n : Int))
  | cs => (digitsToNat cs).map (fun n => (n : Int))

/-- Python 2 `v.lower()`: defined on `str`, an `AttributeError` on `int`. -/
def pLower : PVal → Except PyErr PVal
  | .pstr s => .ok (.pstr (strLower s))
  | .pint _ => .error .attributeError

/-- Python `int(v)`: identity on ints, decimal parse on strings,
`ValueError` when the string is not an integer literal. -/
def pToInt : PVal → Except PyErr PVal
  | .pint n => .ok (.pint n)
  | .pstr s =>
    match pyStrToInt s with
    | some n => .ok (.pint n)
    | none => .error .valueError

/-- Python 2 `str.isdigit()`. -/
def pyIsDigit (s : String) : Bool :=
  s.data ≠ [] ∧ s.data.all Char.isDigit

/-- Python 2 `ConfigParser.getboolean` value parsing: `1/yes/true/on` and
`0/no/false/off` (case-insensitive); anything else raises `ValueError`,
modelled as `none`. -/
def pyGetBoolean (s : String) : Option Bool :=
  if ["1", "yes", "true", "on"].contains (strLower s) then some true
  else if ["0", "no", "false", "off"].contains (strLower s) then some false
  else none

/-! ## Target Profile resolution (`CGenericMinimizer.read_configuration`) -/

/-- The debugger interface selected by the configuration
(`vtrace_iface`, `gdb_iface`, `pykd_iface`). -/
inductive Iface where
  | vtrace
  | gdb
  | pykd
deriving DecidableEq, Repr

/-- An already-parsed ini file: its section names, an option lookup per
section, and the item list of a section (for the `environment`
indirection). -/
structure IniParser where
  sections : List String
  get : String → String → Option String
  items : String → List (String × String)

/-- The resolved Target Profile: the attributes
`CGenericMinimizer.read_configuration` assigns on `self`. -/
structure Profile where
  pre_command : Option String
  pre_iterations : Int
  post_command : Option String
  post_iterations : Int
  command : String
  extension : String
  timeout : PVal
  env : List (String × String)
  cleanup : Option String
  signal : Option Int
  mode : PVal
  windbg_path : Option String
  exploitable_path : Option String
  debugging_interface : Option String
  iface : Iface
deriving DecidableEq, Repr

/-- `CGenericMinimizer.read_configuration` (source lines 131-239).
`cfgExists` stands for `os.path.exists(self.cfg)`.  Every `try/except`
that swallows a missing or malformed option becomes an `Option` default;
the two required options `command` and `extension` raise.  The timeout
block is translated statement for statement: the `except` default is the
Python int `90`, and the subsequent `self.timeout.lower()` runs outside
any `try`, so with the option absent it raises `AttributeError` (an int
has no `lower`).  The `use-gdb` block (lines 221-227) assigns `self.iface`
but the following `debugging-interface` block (lines 229-239) reassigns
it on every path, so the earlier value is dead and is not bound here. -/
def read_configuration (cfgExists : Bool) (p : IniParser) (sect : String) :
    Except PyErr Profile := do
  if !cfgExists then
    throw (PyErr.exn "Invalid configuration file given")
  if !(p.sections.contains sect) then
    throw (PyErr.exn "Section does not exists in the given configuration file")
  let pre_command := p.get sect "pre-command"
  let pre_iterations := ((p.get sect "pre-iterations").bind pyStrToInt).getD 1
  let post_command := p.get sect "post-command"
  let post_iterations := ((p.get sect "post-iterations").bind pyStrToInt).getD 1
  let command ← match p.get sect "command" with
    | some c => pure c
    | none => throw (PyErr.exn "No command specified in the configuration file")
  let extension ← match p.get sect "extension" with
    | some e => pure e
    | none => throw (PyErr.exn "No extension specified in the configuration file")
  let t0 : PVal := match p.get sect "minimize-timeout" with
    | some s => PVal.pstr s
    | none => PVal.pint 90
  let tLow ← pLower t0
  let timeout ← if tLow ≠ PVal.pstr "auto" then pToInt t0 else pure t0
  let env : List (String × String) :=
    match p.get sect "environment" with
    | some envSection =>
      if p.sections.contains envSection then p.items envSection else []
    | none => []
  let cleanup := p.get sect "cleanup-command"
  let signal := (p.get sect "signal").bind pyStrToInt
  let mode : PVal :=
    match p.get sect "mode" with
    | some s => if pyIsDigit s then PVal.pint ((digitsToNat s.data).getD 0 : Nat) else PVal.pstr s
    | none => PVal.pint 32
  let windbg_path := p.get sect "windbg-path"
  let exploitable_path := p.get sect "exploitable-path"
  let (debugging_interface, iface) : Option String × Iface :=
    match p.get sect "debugging-interface" with
    | some s =>
      (some s, if s = "pykd" then Iface.pykd else if s = "gdb" then Iface.gdb
        else Iface.vtrace)
    | none => (none, Iface.vtrace)
  pure ⟨pre_command, pre_iterations, post_command, post_iterations, command,
    extension, timeout, env, cleanup, signal, mode, windbg_path,
    exploitable_path, debugging_interface, iface⟩

/-- A section holding exactly the two required options. -/
def getOnlyRequired (opt : String) : Option String :=
  if opt = "command" then some "/usr/bin/target"
  else if opt = "extension" then some ".txt" else none

/-- A parser whose one section holds only `command` and `extension`. -/
def onlyRequiredParser : IniParser :=
  { sections := ["Minimize"]
    get := fun _ opt => getOnlyRequired opt
    items := fun _ => [] }

/-- The same parser with `minimize-timeout` additionally set to `"90"`. -/
def withTimeoutParser : IniParser :=
  { sections := ["Minimize"]
    get := fun _ opt =>
      if opt = "minimize-timeout" then some "90" else getOnlyRequired opt
    items := fun _ => [] }

/-- Claim C1: resolving a profile from a section holding only the required
options `command` and `extension` does not succeed with a default timeout
of 90 seconds: the int default `90` is fed to `.lower()` and resolution
raises `AttributeError`.  With `minimize-timeout` explicitly present the
very same section resolves, every other field taking its documented
default, which shows the failure is exactly the timeout defaulting. -/
theorem claim_C1_bug :
    read_configuration true onlyRequiredParser "Minimize"
      = Except.error PyErr.attributeError
    ∧ read_configuration true withTimeoutParser "Minimize"
      = Except.ok ⟨none, 1, none, 1, "/usr/bin/target", ".txt", PVal.pint 90,
          [], none, none, PVal.pint 32, none, none, none, Iface.vtrace⟩ := by
  constructor
  · rfl
  · rfl

/-! ## Crash classification (`RETURN_SIGNALS` or-chain, marker path) -/

/-- Key membership in the `RETURN_SIGNALS` dictionary (`ret in
RETURN_SIGNALS`).  The dictionary itself lives in `nfp_process`, outside
this file's source, so it is carried as a code-to-name table parameter. -/
def sigTableMem (tbl : List (Int × String)) (ret : Int) : Bool :=
  tbl.any (fun p_ => p_.1 == ret)

/-- Dictionary indexing `RETURN_SIGNALS[ret]`: the signal name, or `none`
where Python raises `KeyError`. -/
def sigLookup (tbl : List (Int × String)) (ret : Int) : Option String :=
  match tbl with
  | [] => none
  | (k, v) :: rest => if k = ret then some v else sigLookup rest ret

/-- Python 2 evaluation of `os.listdir(path) > 0`: the comparison of a
`list` with an `int` never looks at the elements — CPython 2 orders
values of different types by type name, and `"int" < "list"`, so the
expression is `True` for every directory listing, the empty one
included. -/
def py2_list_gt_int (_listing : List String) (_n : Int) : Bool := true

/-- `CLineMinimizer.crash_file_exists` (source lines 397-400): with
`crash-path` configured it returns `os.listdir(self.crash_path) > 0`,
otherwise `False`.  `listing` is the current directory listing of the
configured path. -/
def crash_file_exists (crash_path : Option String) (listing : List String) :
    Bool :=
  match crash_path with
  | some _ => py2_list_gt_int listing 0
  | none => false

/-- The trial verdict test of `CLineMinimizer.do_try` (source lines
483-484): `ret in RETURN_SIGNALS or (self.signal is not None and
ret == self.signal) or self.crash_file_exists()`. -/
def line_is_crash (tbl : List (Int × String)) (signal : Option Int)
    (crash_path : Option String) (listing : List String) (ret : Int) : Bool :=
  sigTableMem tbl ret
    || (match signal with | some s => ret == s | none => false)
    || crash_file_exists crash_path listing

/-- Claim C2: the marker-path augmentation as implemented.  With a crash
marker directory configured but empty and an exit code that is no crash
(0, with a SIGSEGV/SIGABRT table and no configured signal), the trial is
nevertheless classified as crashed, because `os.listdir(path) > 0`
compares a list against an int and is always `True` in Python 2. -/
theorem claim_C2_bug :
    line_is_crash [(11, "SIGSEGV"), (6, "SIGABRT")] none (some "/home/crashes")
        [] 0 = true
    ∧ crash_file_exists (some "/home/crashes") [] = true
    ∧ crash_file_exists none [] = false := by
  exact ⟨rfl, rfl, rfl⟩

/-- The verdict evaluation of one executed byte-diff trial
(`CGenericMinimizer.do_try`, source lines 310-316), with Python's
short-circuit evaluation and attribute lookup made explicit.  When the
first two disjuncts are false the expression evaluates
`self.crash_file_exists()` — a method `CGenericMinimizer` does not
define (only `CLineMinimizer` does), so the lookup raises
`AttributeError`.  When the verdict is a crash, the success branch
formats `RETURN_SIGNALS[ret]` into its log line, which raises `KeyError`
whenever the crash was matched only by the configured `signal` option. -/
def generic_verdict (tbl : List (Int × String)) (signal : Option Int)
    (ret : Int) : Except PyErr Bool :=
  if sigTableMem tbl ret
      || (match signal with | some s => ret == s | none => false) then
    match sigLookup tbl ret with
    | some _ => Except.ok true
    | none => Except.error PyErr.keyError
  else
    Except.error PyErr.attributeError

/-- Claim C10: verdict evaluation in the byte-diff minimizer is not
total.  A non-crash exit code reaches the missing `crash_file_exists`
attribute (`AttributeError`); an exit code matched only by the
configured crash signal reaches `RETURN_SIGNALS[ret]` in the success log
(`KeyError`); only a table-recognized signal yields a boolean. -/
theorem claim_C10_bug :
    generic_verdict [(11, "SIGSEGV"), (6, "SIGABRT")] none 0
      = Except.error PyErr.attributeError
    ∧ generic_verdict [(11, "SIGSEGV"), (6, "SIGABRT")] (some 134) 134
      = Except.error PyErr.keyError
    ∧ generic_verdict [(11, "SIGSEGV"), (6, "SIGABRT")] none 11
      = Except.ok true := by
  exact ⟨rfl, rfl, rfl⟩

/-! ## Candidate command construction -/

/-- Command construction in `CGenericMinimizer.do_try` (source line 303):
`cmd = "%s %s" % (self.command, temp_file)` — the candidate path is
always appended. -/
def generic_build_cmd (command temp_file : String) : String :=
  command ++ " " ++ temp_file

/-- Occurrence of `sub` as a contiguous substring of a character list
(the `str.find(sub) != -1` test). -/
def containsSub (sub : List Char) : List Char → Bool
  | [] => sub.isEmpty
  | c :: rest => sub.isPrefixOf (c :: rest) || containsSub sub rest

/-- One fuel-indexed step list of Python `str.replace`: replace each
non-overlapping left-to-right occurrence of `sub` by `repl`.  The fuel
is the remaining length, which every step consumes. -/
def replaceSubAux (sub repl : List Char) : Nat → List Char → List Char
  | 0, cs => cs
  | fuel + 1, cs =>
    match cs with
    | [] => []
    | c :: rest =>
      if sub.isPrefixOf (c :: rest) then
        repl ++ replaceSubAux sub repl fuel ((c :: rest).drop sub.length)
      else c :: replaceSubAux sub repl fuel rest

/-- Python `str.replace(sub, repl)` for a nonempty `sub`. -/
def replaceSub (cs sub repl : List Char) : List Char :=
  if sub = [] then cs else replaceSubAux sub repl cs.length cs

/-- Command construction in `CLineMinimizer.do_try` (source lines
472-475): append when `self.command.find("@@") == -1` (the placeholder
does not occur); otherwise replace every `@@` with the candidate
path. -/
def line_build_cmd (command temp_file : String) : String :=
  if !(containsSub "@@".data command.data) then command ++ " " ++ temp_file
  else String.mk (replaceSub command.data "@@".data temp_file.data)

/-- The command construction the claim describes, written from its words:
substitute the candidate path for the explicit placeholder when the
placeholder occurs in `command`, append the path only when it is
absent. -/
def spec_build_cmd (command path : String) : String :=
  if containsSub "@@".data command.data then
    String.mk (replaceSub command.data "@@".data path.data)
  else command ++ " " ++ path

/-- Claim C4, counterexample: the byte-diff minimizer does not honour the
placeholder.  With `command = "crashme @@"` it appends the candidate path
after the untouched `@@` instead of substituting it. -/
theorem claim_C4_counterexample :
    generic_build_cmd "crashme @@" "/tmp/cand"
      ≠ spec_build_cmd "crashme @@" "/tmp/cand"
    ∧ generic_build_cmd "crashme @@" "/tmp/cand" = "crashme @@ /tmp/cand" := by
  exact ⟨by decide, rfl⟩

/-- Claim C4, amended: the line minimizer builds the command exactly as
the claim describes (placeholder substitution when `@@` occurs, append
otherwise), while the byte-diff minimizer always appends the candidate
path, placeholder or not. -/
theorem claim_C4_amended :
    (∀ c p_ : String, line_build_cmd c p_ = spec_build_cmd c p_)
    ∧ (∀ c p_ : String, generic_build_cmd c p_ = c ++ " " ++ p_) := by
  constructor
  · intro c p_
    by_cases h : containsSub "@@".data c.data
    · simp [line_build_cmd, spec_build_cmd, h]
    · simp [line_build_cmd, spec_build_cmd, h]
  · intro c p_
    rfl

/-- The amended C4 statement instantiated at concrete commands. -/
theorem claim_C4_witness :
    line_build_cmd "crashme @@" "/tmp/c" = spec_build_cmd "crashme @@" "/tmp/c"
    ∧ generic_build_cmd "crashme -f" "/tmp/c"
      = "crashme -f" ++ " " ++ "/tmp/c" := by
  exact ⟨claim_C4_amended.1 "crashme @@" "/tmp/c",
    claim_C4_amended.2 "crashme -f" "/tmp/c"⟩


/-! ## Byte-diff minimizer (`CGenericMinimizer`) -/

/-- A byte buffer (`bytearray`): a list of byte values. -/
abbrev Bytes := List Nat

/-- Association-list view of the Python dict `self.crash`
(offset to crash byte value): first-match lookup. -/
def dLookup (m : List (Nat × Nat)) (k : Nat) : Option Nat :=
  match m with
  | [] => none
  | (a, b) :: rest => if a = k then some b else dLookup rest k

/-- `del self.crash[value]`: the key is removed (once built by
`read_crash` every key occurs once, so removing all bindings of the key
coincides with `del`). -/
def delKey (m : List (Nat × Nat)) (k : Nat) : List (Nat × Nat) :=
  match m with
  | [] => []
  | (a, b) :: rest => if a = k then delKey rest k else (a, b) :: delKey rest k

/-- `CGenericMinimizer.read_crash` (source lines 124-129): the Crash Byte
Map holds, for every position of the diff list, the crashing file's byte
at that position. -/
def read_crash (diff : List Nat) (crashBytes : Bytes) : List (Nat × Nat) :=
  diff.map (fun pos => (pos, crashBytes.getD pos 0))

/-- The mutable state of the byte-diff minimization: the diff list, the
Template Buffer and the Crash Byte Map. -/
structure ByteState where
  diff : List Nat
  template : Bytes
  crash : List (Nat × Nat)
deriving DecidableEq, Repr

/-- The Crash Oracle for byte-diff trials, abstracted as the spec's
pluggable capability: given the iteration index and the candidate buffer
handed to the subject, report whether the trial crashed.  (It stands for
lines 292-311 of the source: writing the buffer to a temp file, running
hooks and `execute_command`, and classifying the result.) -/
abbrev Oracle := Nat → Bytes → Bool

/-- The oracle that reports `no-crash` on every trial. -/
def oracleNever : Oracle := fun _ _ => false

/-- The oracle that reports `crashed` on every trial. -/
def oracleAlways : Oracle := fun _ _ => true

/-- One inner pass of `CGenericMinimizer.do_try` (source lines 282-325)
over the positions still in `diff`, returning the iteration counter
after the pass and the first single-change candidate buffer that
reproduced the crash, if any.  Faithful details: a trial below
`start_at` is not executed but still counts an iteration; an executed
trial whose position has no Crash Byte Map entry `continue`s without
counting an iteration; a successful trial `break`s before the counter
increment.  The `Bool`-valued oracle abstracts the verdict expression of
lines 310-316 as the spec's oracle contract; the expression can also
raise (see `generic_verdict`), and `innerPassE` below keeps that
exception behaviour — it matters when no executed trial crashes. -/
def innerPass (oracle : Oracle) (startAt : Nat) (template : Bytes)
    (crash : List (Nat × Nat)) : List Nat → Nat → Nat × Option Bytes
  | [], it => (it, none)
  | pos :: rest, it =>
    if startAt ≤ it then
      match dLookup crash pos with
      | none => innerPass oracle startAt template crash rest it
      | some b =>
        let buf := template.set pos b
        if oracle it buf then (it, some buf)
        else innerPass oracle startAt template crash rest (it + 1)
    else
      innerPass oracle startAt template crash rest (it + 1)

/-- The end-of-round shrink of `CGenericMinimizer.do_try` (source lines
330-333): `value = self.diff.pop()` takes the last diff position, and if
the Crash Byte Map binds it, the Template Buffer is overwritten at that
position with the crash byte and the binding is deleted.  (On every
reachable state the diff list is nonempty here, since the outer loop
runs once per initial diff element and each round pops exactly one.) -/
def popBake (st : ByteState) : ByteState :=
  match st.diff.getLast? with
  | none => st
  | some v =>
    match dLookup st.crash v with
    | some b => ⟨st.diff.dropLast, st.template.set v b, delKey st.crash v⟩
    | none => ⟨st.diff.dropLast, st.template, st.crash⟩

/-- The outcome of a byte-diff run: final iteration counter, the
`minimized` flag, the persisted candidate buffer (the byte content
written to `<outdir>/<sha1>.<ext>`, `none` when no file is written), and
the final state. -/
structure GenResult where
  iteration : Nat
  minimized : Bool
  written : Option Bytes
  state : ByteState
deriving DecidableEq, Repr

/-- The outer loop of `CGenericMinimizer.do_try` (source line 281):
`for i in range(len(self.diff))` — the round count is the diff length
frozen at entry, each round being an inner pass followed, on failure, by
`popBake`; on success the run stops with the winning buffer persisted. -/
def genLoop (oracle : Oracle) (startAt : Nat) :
    Nat → Nat → ByteState → GenResult
  | 0, it, st => ⟨it, false, none, st⟩
  | r + 1, it, st =>
    match innerPass oracle startAt st.template st.crash st.diff it with
    | (it', some buf) => ⟨it', true, some buf, st⟩
    | (it', none) => genLoop oracle startAt r it' (popBake st)

/-- `CGenericMinimizer.do_try` (source lines 276-336). -/
def do_try (oracle : Oracle) (startAt : Nat) (st : ByteState) : GenResult :=
  genLoop oracle startAt st.diff.length 0 st

/-- Exception-aware inner pass: like `innerPass`, but an executed trial
evaluates the verdict expression of source lines 310-316 through
`generic_verdict` over the subject's exit code, so the `AttributeError`
(missing `crash_file_exists` on `CGenericMinimizer`) and the `KeyError`
of the success log propagate and abort the run, exactly as an uncaught
Python exception unwinds out of `do_try`.  The `.ok false` fall-through
(verdict evaluated to `False`, loop continues) is kept for structural
fidelity although `generic_verdict` can never produce it. -/
def innerPassE (tbl : List (Int × String)) (signal : Option Int)
    (subject : Nat → Bytes → Int) (startAt : Nat) (template : Bytes)
    (crash : List (Nat × Nat)) :
    List Nat → Nat → Except PyErr (Nat × Option Bytes)
  | [], it => .ok (it, none)
  | pos :: rest, it =>
    if startAt ≤ it then
      match dLookup crash pos with
      | none => innerPassE tbl signal subject startAt template crash rest it
      | some b =>
        let buf := template.set pos b
        match generic_verdict tbl signal (subject it buf) with
        | .error e => .error e
        | .ok true => .ok (it, some buf)
        | .ok false =>
          innerPassE tbl signal subject startAt template crash rest (it + 1)
    else
      innerPassE tbl signal subject startAt template crash rest (it + 1)

/-- Exception-aware outer loop of `CGenericMinimizer.do_try`: `genLoop`
with the verdict exceptions of `innerPassE` propagated. -/
def genLoopE (tbl : List (Int × String)) (signal : Option Int)
    (subject : Nat → Bytes → Int) (startAt : Nat) :
    Nat → Nat → ByteState → Except PyErr GenResult
  | 0, it, st => .ok ⟨it, false, none, st⟩
  | r + 1, it, st =>
    match innerPassE tbl signal subject startAt st.template st.crash
        st.diff it with
    | .error e => .error e
    | .ok (it1, some buf) => .ok ⟨it1, true, some buf, st⟩
    | .ok (it1, none) => genLoopE tbl signal subject startAt r it1 (popBake st)

/-- `CGenericMinimizer.do_try` with the verdict expression embedded
rather than abstracted: the run either finishes as a `GenResult` or
dies on an uncaught exception from a trial's verdict evaluation. -/
def do_tryE (tbl : List (Int × String)) (signal : Option Int)
    (subject : Nat → Bytes → Int) (startAt : Nat) (st : ByteState) :
    Except PyErr GenResult :=
  genLoopE tbl signal subject startAt st.diff.length 0 st


/-- Removing a key from the Crash Byte Map leaves no binding for it. -/
theorem dLookup_delKey (m : List (Nat × Nat)) (k : Nat) :
    dLookup (delKey m k) k = none := by
  induction m with
  | nil => rfl
  | cons hd tl ih =>
    obtain ⟨a, b⟩ := hd
    by_cases h : a = k
    · simp [delKey, h, ih]
    · simp [delKey, dLookup, h, ih]

/-- Claim C5: when an inner pass finds no single-change reproduction, the
round transition removes exactly the last offset of the current diff
list: the Template Buffer is permanently overwritten at that offset with
its crash byte, and the offset disappears from both the diff list and
the Crash Byte Map before the next round.  (The diff list carries no
duplicate offsets, as the data-model invariant states and as
`read_crash` establishes for the map keys.) -/
theorem claim_C5 (oracle : Oracle) (startAt r it : Nat) (st : ByteState)
    (l b : Nat)
    (hlast : st.diff.getLast? = some l)
    (hnd : st.diff.Nodup)
    (hb : dLookup st.crash l = some b)
    (hfail : (innerPass oracle startAt st.template st.crash st.diff it).2
      = none) :
    genLoop oracle startAt (r + 1) it st
      = genLoop oracle startAt r
          (innerPass oracle startAt st.template st.crash st.diff it).1
          ⟨st.diff.dropLast, st.template.set l b, delKey st.crash l⟩
    ∧ dLookup (delKey st.crash l) l = none
    ∧ l ∉ st.diff.dropLast := by
  refine ⟨?_, dLookup_delKey _ _, ?_⟩
  · have hpair : innerPass oracle startAt st.template st.crash st.diff it
        = ((innerPass oracle startAt st.template st.crash st.diff it).1,
            none) := by
      rw [← hfail]
    rw [genLoop, hpair]
    simp [popBake, hlast, hb]
  · intro hmem
    have hsplit := List.dropLast_append_getLast? l hlast
    rw [← hsplit] at hnd
    rw [List.nodup_append] at hnd
    exact (hnd.2.2 hmem) (by simp)

/-- An inner pass that finds no crash over the diff `[0, 1]` (oracle
always `no-crash`) makes the round bake offset `1`: the witness
instantiates `claim_C5` at that state. -/
theorem claim_C5_witness :
    genLoop oracleNever 0 (0 + 1) 0 ⟨[0, 1], [10, 20], [(0, 5), (1, 7)]⟩
      = genLoop oracleNever 0 0 2 ⟨[0], [10, 7], [(0, 5)]⟩
    ∧ dLookup [(0, 5)] 1 = none
    ∧ 1 ∉ [0] := by
  exact claim_C5 oracleNever 0 0 0 ⟨[0, 1], [10, 20], [(0, 5), (1, 7)]⟩ 1 7
    rfl (by decide) rfl rfl


/-! ## Line-span minimizer (`CLineMinimizer`) -/

/-- A file written to the output directory by the line minimizer: either
the rolling `last_minimized<ext>` checkpoint or the final
`<sha1-of-buffer><ext>` artifact, carrying the line content written. -/
inductive OutFile where
  | lastMinimized (lines : List String)
  | hashNamed (lines : List String)
deriving DecidableEq, Repr

/-- The line content of a written file. -/
def outLines : OutFile → List String
  | .lastMinimized ls => ls
  | .hashNamed ls => ls

/-- The configuration options `CLineMinimizer.read_configuration` adds,
re-read before every trial; the claims quantify over a fixed value,
corresponding to a configuration file that does not change mid-run. -/
structure LineCfg where
  line_per_line : Bool
  lines_to_rip : Nat
  lines_percent : Nat
deriving DecidableEq, Repr

/-- The mutable state of a line-minimization run: the Line Buffer, the
line cursor, the iteration counter, the files written so far, and the
iteration indices at which the subject was actually executed. -/
structure LineState where
  template : List String
  current_line : Nat
  iteration : Nat
  outputs : List OutFile
  execs : List Nat
deriving DecidableEq, Repr

/-- The Crash Oracle for line trials (iteration index and candidate line
list), abstracting source lines 461-484 the way `Oracle` does for the
byte-diff minimizer. -/
abbrev LineOracle := Nat → List String → Bool

/-- The injectable random source behind `random.randint(1, val)`: the raw
draw for an iteration, folded into `1 + draw % val` so that any source
yields a value in `[1, val]`. -/
abbrev Rand := Nat → Nat

/-- The line oracle that reports `no-crash` on every trial. -/
def lineOracleNever : LineOracle := fun _ _ => false

/-- The line oracle that reports `crashed` on every trial. -/
def lineOracleAlways : LineOracle := fun _ _ => true

/-- The number of lines to rip for one trial (source lines 439-453): in
the first outer loop with line-per-line mode off, a random count between
1 and `max(1, (total_lines - current_line) * lines_percent / 100)`;
otherwise the configured fixed count. -/
def ripCount (cfg : LineCfg) (rand : Rand)
    (loops totalLines currentLine it : Nat) : Nat :=
  if loops = 0 && !cfg.line_per_line then
    let val := (totalLines - currentLine) * cfg.lines_percent / 100
    let val := if val = 0 then 1 else val
    1 + rand it % val
  else cfg.lines_to_rip

/-- The inner loop of `CLineMinimizer.do_try` (source lines 429-501),
fuel-indexed by the `range(len(self.template))` bound frozen at loop
entry.  Faithful details: the iteration counter is incremented before
the cursor test; `break` fires when the cursor reaches the current
buffer length; a crashing trial replaces the buffer by the candidate
(lines `[current_line, current_line + k)` deleted), writes the
`last_minimized` checkpoint and leaves the cursor in place; a non-crash
advances the cursor by one and discards the candidate.  The `start_at`
argument of the method is never consulted here, so every trial records
an execution. -/
def lineInner (cfg : LineCfg) (oracle : LineOracle) (rand : Rand)
    (totalLines loops : Nat) : Nat → LineState → LineState
  | 0, st => st
  | fuel + 1, st =>
    let it := st.iteration
    let st1 : LineState := { st with iteration := it + 1 }
    if st1.current_line ≥ st1.template.length then st1
    else
      let k := ripCount cfg rand loops totalLines st1.current_line it
      let cand := st1.template.take st1.current_line
        ++ st1.template.drop (st1.current_line + k)
      let st2 : LineState := { st1 with execs := st1.execs ++ [it] }
      if oracle it cand then
        lineInner cfg oracle rand totalLines loops fuel
          { st2 with template := cand,
                     outputs := st2.outputs ++ [OutFile.lastMinimized cand] }
      else
        lineInner cfg oracle rand totalLines loops fuel
          { st2 with current_line := st2.current_line + 1 }

/-- The outer `while 1` loop of `CLineMinimizer.do_try` (source lines
423-514), fuel-indexed (each non-converging loop strictly shrinks the
buffer, so any fuel above the initial line count suffices; `none` is
returned only on fuel exhaustion, which no reachable call performs).
Returns the final value of the `loops` counter together with the final
state; on convergence (a full pass with no reduction) the buffer is
written under its content-hash filename. -/
def lineRun (cfg : LineCfg) (oracle : LineOracle) (rand : Rand) :
    Nat → Nat → LineState → Option (Nat × LineState)
  | 0, _, _ => none
  | fuel + 1, loops, st =>
    let total := st.template.length
    let st1 := lineInner cfg oracle rand total loops total
      { st with current_line := 0 }
    if st1.template.length = total then
      some (loops + 1,
        { st1 with outputs := st1.outputs ++ [OutFile.hashNamed st1.template] })
    else
      lineRun cfg oracle rand fuel (loops + 1) st1

/-- `CLineMinimizer.do_try` (source lines 408-514).  Its `start_at`
parameter is accepted but never read in the body, so the run is the same
for every value of it. -/
def line_do_try (cfg : LineCfg) (oracle : LineOracle) (rand : Rand)
    (fuel : Nat) (startAt : Nat) (st : LineState) :
    Option (Nat × LineState) :=
  lineRun cfg oracle rand fuel 0 st

/-- The state at entry of `CLineMinimizer.do_try`. -/
def initLineState (tpl : List String) : LineState := ⟨tpl, 0, 0, [], []⟩

/-- `CLineMinimizer.read_template` (source lines 373-382) with
`strip_empty_lines` set (as `__init__` leaves it): blank lines are
dropped at load time. -/
def strip_lines (l : List String) : List String :=
  l.filter (fun s => !(s == "\n" || s == "\r\n"))


/-- Claim C6: the byte-diff half is unreachable in the program.  With a
subject that never crashes (exit code 0 on every trial, a
SIGSEGV/SIGABRT table, no configured signal), the very first executed
trial's verdict expression raises `AttributeError` — `crash_file_exists`
is undefined on `CGenericMinimizer` — so the run aborts with the diff
list intact and `Exhausted`/empty-diff is never reached.  The line half
of the claim does hold: on a two-line file the never-crashing run
converges after exactly one outer loop with the Line Buffer unchanged,
written under its content-hash filename. -/
theorem claim_C6_bug :
    do_tryE [(11, "SIGSEGV"), (6, "SIGABRT")] none (fun _ _ => 0) 0
        ⟨[0, 1], [10, 20], [(0, 5), (1, 7)]⟩
      = Except.error PyErr.attributeError
    ∧ lineRun ⟨false, 1, 10⟩ lineOracleNever (fun _ => 0) 1 0
        (initLineState ["a", "b"])
      = some (1, ⟨["a", "b"], 2, 2, [OutFile.hashNamed ["a", "b"]],
          [0, 1]⟩) := by
  exact ⟨rfl, rfl⟩

/-- Every trial rips at least one line when the configured fixed count is
positive (the randomized first-loop count is positive by construction). -/
theorem ripCount_pos (cfg : LineCfg) (rand : Rand)
    (loops totalLines currentLine it : Nat) (hrip : 1 ≤ cfg.lines_to_rip) :
    1 ≤ ripCount cfg rand loops totalLines currentLine it := by
  unfold ripCount
  split
  all_goals first
    | exact hrip
    | exact Nat.le_add_right 1 _

/-- With the always-`crashed` oracle and a positive rip count, an inner
loop given at least as much fuel as the buffer is long empties the
buffer: every trial deletes a nonempty span at cursor 0 and the cursor
never advances. -/
theorem lineInner_always (cfg : LineCfg) (rand : Rand)
    (totalLines loops : Nat) (hrip : 1 ≤ cfg.lines_to_rip) :
    ∀ (fuel : Nat) (st : LineState), st.current_line = 0 →
      st.template.length ≤ fuel →
      (lineInner cfg lineOracleAlways rand totalLines loops fuel st).template
        = [] := by
  intro fuel
  induction fuel with
  | zero =>
    intro st hcl hlen
    have htpl : st.template = [] := List.length_eq_zero.mp (by omega)
    simpa [lineInner] using htpl
  | succ n ih =>
    intro st hcl hlen
    obtain ⟨tpl, cl, itr, outs, exs⟩ := st
    simp only at hcl hlen
    subst hcl
    by_cases hemp : tpl.length = 0
    · have htpl : tpl = [] := List.length_eq_zero.mp hemp
      subst htpl
      simp [lineInner]
    · have hge : ¬ ((0 : Nat) ≥ tpl.length) := by omega
      rw [lineInner]
      simp only [lineOracleAlways, if_true, if_neg hge]
      apply ih
      · rfl
      · have hk := ripCount_pos cfg rand loops totalLines 0 itr hrip
        simp [List.length_drop]
        omega

/-- Claim C7, counterexample: with the always-`crashed` oracle on a
one-line file the line minimizer does not stop after one outer loop —
the first loop empties the buffer, and a second, trial-free loop is
needed to detect convergence, so the loop counter reads 2 at
termination. -/
theorem claim_C7_counterexample :
    (lineRun ⟨false, 1, 10⟩ lineOracleAlways (fun _ => 0) 2 0
        (initLineState ["boom"])).map Prod.fst = some 2
    ∧ (lineRun ⟨false, 1, 10⟩ lineOracleAlways (fun _ => 0) 2 0
        (initLineState ["boom"])).map Prod.fst ≠ some 1 := by
  exact ⟨rfl, by decide⟩

/-- Claim C7, amended: with the always-`crashed` oracle the byte-diff
minimizer terminates successfully on the very first trial of round 0,
persisting that first single-change candidate and changing no state; the
line minimizer (given a positive configured rip count) reduces the Line
Buffer to 0 kept lines during its first outer loop and terminates after
a second, trial-free outer loop confirms convergence, the loop counter
reading 2 for a nonempty input. -/
theorem claim_C7_amended :
    (∀ (t : Bytes) (c : List (Nat × Nat)) (p_ : Nat) (rest : List Nat)
        (b : Nat), dLookup c p_ = some b → p_ < t.length →
        do_try oracleAlways 0 ⟨p_ :: rest, t, c⟩
          = ⟨0, true, some (t.set p_ b), ⟨p_ :: rest, t, c⟩⟩)
    ∧ (∀ (cfg : LineCfg) (rand : Rand) (tpl : List String) (fuel : Nat),
        1 ≤ cfg.lines_to_rip → tpl ≠ [] →
        ∃ st_,
          lineRun cfg lineOracleAlways rand (fuel + 2) 0 (initLineState tpl)
            = some (2, st_) ∧ st_.template = []) := by
  constructor
  · intro t c p_ rest b hb _hp
    simp only [do_try, List.length_cons]
    rw [genLoop]
    simp [innerPass, hb, oracleAlways]
  · intro cfg rand tpl fuel hrip htpl
    have h2 : fuel + 2 = (fuel + 1) + 1 := rfl
    rw [h2, lineRun]
    simp only [initLineState]
    generalize hst1 : lineInner cfg lineOracleAlways rand tpl.length 0
      tpl.length ⟨tpl, 0, 0, [], []⟩ = st1
    have h1 : st1.template = [] := by
      rw [← hst1]
      exact lineInner_always cfg rand tpl.length 0 hrip tpl.length
        ⟨tpl, 0, 0, [], []⟩ rfl (Nat.le_refl _)
    obtain ⟨t1, c1, i1, o1, e1⟩ := st1
    simp only at h1
    subst h1
    have hne : ¬ (([] : List String).length = tpl.length) := by
      simpa using (List.length_pos.mpr htpl).ne
    simp only [if_neg hne]
    rw [lineRun]
    simp only [lineInner, List.length_nil]
    exact ⟨_, rfl, rfl⟩


/-- The amended C7 statement instantiated: a byte-diff state with diff
`[3]`, and a one-line file in line mode with the default rip count 1. -/
theorem claim_C7_witness :
    do_try oracleAlways 0 ⟨[3], [0, 0, 0, 0], [(3, 9)]⟩
      = ⟨0, true, some ([0, 0, 0, 0].set 3 9), ⟨[3], [0, 0, 0, 0], [(3, 9)]⟩⟩
    ∧ ∃ st_,
        lineRun ⟨false, 1, 10⟩ lineOracleAlways (fun _ => 0) 2 0
          (initLineState ["last"]) = some (2, st_) ∧ st_.template = [] := by
  exact ⟨claim_C7_amended.1 [0, 0, 0, 0] [(3, 9)] 3 [] 9 rfl (by decide),
    claim_C7_amended.2 ⟨false, 1, 10⟩ (fun _ => 0) ["last"] 0 (by decide)
      (by decide)⟩


/-- Overwriting one position of a buffer leaves every other position
unchanged. -/
theorem get?_set_of_ne : ∀ (l : Bytes) (n m a : Nat), n ≠ m →
    (l.set n a).get? m = l.get? m := by
  intro l
  induction l with
  | nil =>
    intro n m a _
    rfl
  | cons x xs ih =>
    intro n m a h
    cases n with
    | zero =>
      cases m with
      | zero => exact absurd rfl h
      | succ m1 => rfl
    | succ n1 =>
      cases m with
      | zero => rfl
      | succ m1 => simpa using ih n1 m1 a (by omega)

/-- The last element of a list is one of its elements. -/
theorem mem_of_getLastQ (l : List Nat) (a : Nat) (h : l.getLast? = some a) :
    a ∈ l := by
  have hsplit := List.dropLast_append_getLast? a h
  rw [← hsplit]
  simp

/-- A successful inner pass hands back the current Template Buffer with
exactly one diff position overwritten. -/
theorem innerPass_written (oracle : Oracle) (startAt : Nat) (t : Bytes)
    (c : List (Nat × Nat)) :
    ∀ (ps : List Nat) (it : Nat) (buf : Bytes),
      (innerPass oracle startAt t c ps it).2 = some buf →
      ∃ pos, pos ∈ ps ∧ ∃ b, buf = t.set pos b := by
  intro ps
  induction ps with
  | nil =>
    intro it buf h
    exact absurd h (by simp [innerPass])
  | cons pos rest ih =>
    intro it buf h
    by_cases hs : startAt ≤ it
    · rw [innerPass, if_pos hs] at h
      cases hc : dLookup c pos with
      | none =>
        simp only [hc] at h
        obtain ⟨q, hq, b, hb⟩ := ih it buf h
        exact ⟨q, List.mem_cons_of_mem _ hq, b, hb⟩
      | some b =>
        simp only [hc] at h
        by_cases ho : oracle it (t.set pos b)
        · rw [if_pos ho] at h
          simp only [Option.some.injEq] at h
          exact ⟨pos, List.mem_cons_self _ _, b, h.symm⟩
        · rw [if_neg ho] at h
          obtain ⟨q, hq, b1, hb1⟩ := ih (it + 1) buf h
          exact ⟨q, List.mem_cons_of_mem _ hq, b1, hb1⟩
    · rw [innerPass, if_neg hs] at h
      obtain ⟨q, hq, b, hb⟩ := ih (it + 1) buf h
      exact ⟨q, List.mem_cons_of_mem _ hq, b, hb⟩

/-- The end-of-round shrink only keeps positions that were already in the
diff list. -/
theorem popBake_diff_subset (st : ByteState) (q : Nat)
    (h : q ∈ (popBake st).diff) : q ∈ st.diff := by
  unfold popBake at h
  cases hl : st.diff.getLast? with
  | none =>
    simp only [hl] at h
    exact h
  | some v =>
    simp only [hl] at h
    cases hc : dLookup st.crash v with
    | none =>
      simp only [hc] at h
      exact List.dropLast_subset _ h
    | some b =>
      simp only [hc] at h
      exact List.dropLast_subset _ h

/-- The end-of-round shrink only writes the Template Buffer at a current
diff position. -/
theorem popBake_template_frame (st : ByteState) (i : Nat)
    (h : ∀ q ∈ st.diff, q ≠ i) :
    (popBake st).template.get? i = st.template.get? i := by
  unfold popBake
  cases hl : st.diff.getLast? with
  | none => simp [hl]
  | some v =>
    simp only [hl]
    cases hc : dLookup st.crash v with
    | none => simp [hc]
    | some b =>
      simp only [hc]
      exact get?_set_of_ne _ _ _ _ (h v (mem_of_getLastQ _ _ hl))

/-- Frame property of the whole byte-diff loop: positions outside a set
`D` containing every current diff position are never touched, neither in
the evolving Template Buffer nor in a persisted candidate. -/
theorem genLoop_frame (oracle : Oracle) (startAt : Nat) (D : List Nat)
    (i : Nat) (hiD : i ∉ D) :
    ∀ (r it : Nat) (st : ByteState), (∀ q ∈ st.diff, q ∈ D) →
      (genLoop oracle startAt r it st).state.template.get? i
          = st.template.get? i
      ∧ (∀ buf, (genLoop oracle startAt r it st).written = some buf →
          buf.get? i = st.template.get? i) := by
  intro r
  induction r with
  | zero =>
    intro it st _hsub
    refine ⟨rfl, ?_⟩
    intro buf h
    exact absurd h (by simp [genLoop])
  | succ n ih =>
    intro it st hsub
    rw [genLoop]
    cases hip : innerPass oracle startAt st.template st.crash st.diff it with
    | mk it1 found =>
      cases found with
      | some buf0 =>
        refine ⟨rfl, ?_⟩
        intro buf h
        simp only [Option.some.injEq] at h
        obtain ⟨pos, hpos, b, hb⟩ := innerPass_written oracle startAt
          st.template st.crash st.diff it buf0 (by rw [hip])
        rw [← h, hb]
        exact get?_set_of_ne _ _ _ _ (fun he => hiD (he ▸ hsub pos hpos))
      | none =>
        have hsub1 : ∀ q ∈ (popBake st).diff, q ∈ D :=
          fun q hq => hsub q (popBake_diff_subset st q hq)
        have htpl : (popBake st).template.get? i = st.template.get? i :=
          popBake_template_frame st i
            (fun q hq he => hiD (he ▸ hsub q hq))
        have hrec := ih it1 (popBake st) hsub1
        exact ⟨by rw [hrec.1, htpl], fun buf h => by
          rw [hrec.2 buf h, htpl]⟩

/-- Claim C8: a byte-diff run only ever modifies the Template Buffer at
offsets of the original diff list — the final buffer and any persisted
candidate agree with the original template everywhere outside it. -/
theorem claim_C8 (oracle : Oracle) (startAt : Nat) (st : ByteState)
    (i : Nat) (_hbound : ∀ q ∈ st.diff, q < st.template.length)
    (hi : i ∉ st.diff) :
    (do_try oracle startAt st).state.template.get? i = st.template.get? i
    ∧ (∀ buf, (do_try oracle startAt st).written = some buf →
        buf.get? i = st.template.get? i) :=
  genLoop_frame oracle startAt st.diff i hi st.diff.length 0 st
    (fun _ h => h)

/-- The C8 statement instantiated: diff `[1]` over the template
`[9, 9]` — position 0 is untouched in the final buffer and in the
persisted candidate. -/
theorem claim_C8_witness :
    (do_try oracleAlways 0 ⟨[1], [9, 9], [(1, 3)]⟩).state.template.get? 0
        = some 9
    ∧ ([9, 9].set 1 3).get? 0 = some 9 := by
  have h := claim_C8 oracleAlways 0 ⟨[1], [9, 9], [(1, 3)]⟩ 0 (by decide)
    (by decide)
  exact ⟨h.1, h.2 ([9, 9].set 1 3) rfl⟩


/-- Deleting the span `[cl, cl + k)` from a line list yields a sublist of
it. -/
theorem cand_sublist (tpl : List String) (cl k : Nat) :
    List.Sublist (tpl.take cl ++ tpl.drop (cl + k)) tpl := by
  have h1 : List.Sublist (tpl.drop (cl + k)) (tpl.drop cl) := by
    rw [← List.drop_drop]
    exact List.drop_sublist _ _
  have h2 := h1.append_left (tpl.take cl)
  have h3 : tpl.take cl ++ tpl.drop cl = tpl := List.take_append_drop cl tpl
  rw [h3] at h2
  exact h2

/-- Across one inner loop of the line minimizer the Line Buffer only ever
shrinks to a sublist of itself, and every file written during the loop
holds at most as many lines as the buffer held at loop entry. -/
theorem lineInner_sublist (cfg : LineCfg) (oracle : LineOracle) (rand : Rand)
    (totalLines loops : Nat) :
    ∀ (fuel : Nat) (st : LineState),
      List.Sublist
        (lineInner cfg oracle rand totalLines loops fuel st).template
        st.template
      ∧ ∀ o ∈ (lineInner cfg oracle rand totalLines loops fuel st).outputs,
          o ∈ st.outputs ∨ (outLines o).length ≤ st.template.length := by
  intro fuel
  induction fuel with
  | zero =>
    intro st
    exact ⟨List.Sublist.refl _, fun o ho => Or.inl ho⟩
  | succ n ih =>
    intro st
    rw [lineInner]
    dsimp only
    split
    · exact ⟨List.Sublist.refl _, fun o ho => Or.inl ho⟩
    · split
      · have hc := cand_sublist st.template st.current_line
          (ripCount cfg rand loops totalLines st.current_line st.iteration)
        have hrec := ih ⟨st.template.take st.current_line
            ++ st.template.drop (st.current_line
              + ripCount cfg rand loops totalLines st.current_line
                  st.iteration),
          st.current_line, st.iteration + 1,
          st.outputs ++ [OutFile.lastMinimized (st.template.take
            st.current_line ++ st.template.drop (st.current_line
              + ripCount cfg rand loops totalLines st.current_line
                  st.iteration))],
          st.execs ++ [st.iteration]⟩
        refine ⟨hrec.1.trans hc, ?_⟩
        intro o ho
        rcases hrec.2 o ho with hmem | hlen
        · rcases List.mem_append.mp hmem with h1 | h2
          · exact Or.inl h1
          · simp only [List.mem_singleton] at h2
            subst h2
            exact Or.inr (by simpa [outLines] using hc.length_le)
        · exact Or.inr (le_trans hlen hc.length_le)
      · have hrec := ih ⟨st.template, st.current_line + 1,
          st.iteration + 1, st.outputs, st.execs ++ [st.iteration]⟩
        exact ⟨hrec.1, fun o ho => hrec.2 o ho⟩

/-- Run-level version of `lineInner_sublist`: over the whole
minimization the buffer shrinks to a sublist of the initial one and
every written file is bounded by the initial line count. -/
theorem lineRun_sublist (cfg : LineCfg) (oracle : LineOracle) (rand : Rand) :
    ∀ (fuel loops : Nat) (st : LineState) (lf : Nat) (st_ : LineState),
      lineRun cfg oracle rand fuel loops st = some (lf, st_) →
      List.Sublist st_.template st.template
      ∧ ∀ o ∈ st_.outputs,
          o ∈ st.outputs ∨ (outLines o).length ≤ st.template.length := by
  intro fuel
  induction fuel with
  | zero =>
    intro loops st lf st_ h
    exact absurd h (by simp [lineRun])
  | succ n ih =>
    intro loops st lf st_ h
    rw [lineRun] at h
    have hinner := lineInner_sublist cfg oracle rand st.template.length loops
      st.template.length { st with current_line := 0 }
    by_cases hconv : (lineInner cfg oracle rand st.template.length loops
        st.template.length { st with current_line := 0 }).template.length
        = st.template.length
    · rw [if_pos hconv] at h
      simp only [Option.some.injEq, Prod.mk.injEq] at h
      obtain ⟨-, hst⟩ := h
      subst hst
      refine ⟨hinner.1, ?_⟩
      intro o ho
      rcases List.mem_append.mp ho with h1 | h2
      · exact hinner.2 o h1
      · simp only [List.mem_singleton] at h2
        subst h2
        exact Or.inr (by simpa [outLines] using hinner.1.length_le)
    · rw [if_neg hconv] at h
      have hrec := ih (loops + 1) _ lf st_ h
      refine ⟨hrec.1.trans hinner.1, ?_⟩
      intro o ho
      rcases hrec.2 o ho with h1 | h2
      · rcases hinner.2 o h1 with h3 | h4
        · exact Or.inl h3
        · exact Or.inr h4
      · exact Or.inr (le_trans h2 hinner.1.length_le)

/-- Claim C9: the Line Buffer never grows — a finished run's buffer is a
sublist of the loaded (blank-stripped) buffer, and every produced output
file holds at most as many lines as the input file. -/
theorem claim_C9 (cfg : LineCfg) (oracle : LineOracle) (rand : Rand)
    (fuel : Nat) (raw : List String) (lf : Nat) (st_ : LineState)
    (h : lineRun cfg oracle rand fuel 0 (initLineState (strip_lines raw))
      = some (lf, st_)) :
    List.Sublist st_.template (strip_lines raw)
    ∧ ∀ o ∈ st_.outputs, (outLines o).length ≤ raw.length := by
  have hrun := lineRun_sublist cfg oracle rand fuel 0 _ lf st_ h
  have hstrip : (strip_lines raw).length ≤ raw.length :=
    List.length_filter_le _ _
  refine ⟨hrun.1, ?_⟩
  intro o ho
  rcases hrun.2 o ho with h1 | h2
  · exact absurd h1 (by simp [initLineState])
  · exact le_trans h2 hstrip

/-- The C9 statement instantiated: a two-line input whose blank second
line is stripped at load, run under the never-crashing oracle. -/
theorem claim_C9_witness :
    List.Sublist ["a"] (strip_lines ["a", "\n"])
    ∧ (outLines (OutFile.hashNamed ["a"])).length ≤ ["a", "\n"].length := by
  have h := claim_C9 ⟨false, 1, 10⟩ lineOracleNever (fun _ => 0) 1
    ["a", "\n"] 1 ⟨["a"], 1, 1, [OutFile.hashNamed ["a"]], [0]⟩ rfl
  exact ⟨h.1, h.2 _ (by decide)⟩


/-- Claim C3: resumption is not implemented in line mode.  Running the
line minimizer on a two-line file with a starting iteration index of 1
still executes the subject at iterations 0 and 1 — the `start_at`
argument of `CLineMinimizer.do_try` is never consulted, so no trial is
skipped.  (The byte-diff minimizer does consult it, at source line
283.) -/
theorem claim_C3_bug :
    (line_do_try ⟨false, 1, 10⟩ lineOracleNever (fun _ => 0) 2 1
        (initLineState ["a", "b"])).map (fun r => r.2.execs)
      = some [0, 1] := by
  rfl


end Nightmare
